import Mathlib

/-!
Shallow embedding of `src/vs/workbench/parts/extensions/electron-browser/extensionsWidgets.ts`:
the display widgets (install count, ratings) and extension actions (install, uninstall,
combined install, update, enable, disable, reload, update-all, change-sort) of the
extensions panel.  Mutable fields of the TypeScript classes become explicit state records;
each `update()` derivation becomes a pure state transformer; `run()` methods become
functions returning a description of the external calls they issue and the value they
return.  The external extension-workbench service is abstracted by its observable inputs:
the bound extension record, the `canInstall` answer, and the local extension collection.
-/

namespace ExtensionsWidgets

/-- `ExtensionState` enum from `./extensions`. -/
inductive ExtensionState
  | Uninstalled
  | Installing
  | Installed
  | Disabled
  | NeedsReload
  deriving DecidableEq, Repr

/-- `LocalExtensionType` from `vs/platform/extensionManagement/common/extensionManagement`. -/
inductive LocalExtensionType
  | System
  | User
  deriving DecidableEq, Repr

/-- The fields of an `IExtension` record that this file reads.  `installCount` and
`rating` may be `null` in the source; `rating` is a JS number, modelled as a rational. -/
structure IExtension where
  identifier : String
  displayName : String
  state : ExtensionState
  type : LocalExtensionType
  installCount : Option Nat
  rating : Option ℚ
  ratingCount : Nat
  outdated : Bool
  deriving DecidableEq, Repr

/-- The mutable presentation fields of an `Action` that the derivations write:
`this.enabled`, `this.label`, `this.class` (the latter renamed `cls`, `class` being a
Lean keyword). -/
structure ActionState where
  enabled : Bool
  label : String
  cls : String
  deriving DecidableEq, Repr

namespace InstallAction

def InstallLabel : String := "Install"
def InstallingLabel : String := "Installing"
def Class : String := "extension-action install"
def InstallingClass : String := "extension-action install installing"

/-- Constructor state: `super('extensions.install', InstallAction.InstallLabel,
InstallAction.Class, false)`. -/
def initial : ActionState :=
  { enabled := false, label := InstallLabel, cls := Class }

/-- `InstallAction.update()`: derives `{enabled, label, class}` from the bound extension
and the service's `canInstall` answer, overwriting the previous state `s`. -/
def update (canInstall : IExtension → Bool) (ext : Option IExtension)
    (s : ActionState) : ActionState :=
  match ext with
  | none =>
    { s with enabled := false, cls := Class, label := InstallLabel }
  | some e =>
    if e.type = LocalExtensionType.System then
      { s with enabled := false, cls := Class, label := InstallLabel }
    else
      let s := { s with
        enabled := canInstall e && decide (e.state = ExtensionState.Uninstalled) }
      if e.state = ExtensionState.Installing then
        { s with label := InstallingLabel, cls := InstallingClass }
      else
        { s with label := InstallLabel, cls := Class }

end InstallAction

namespace UninstallAction

/-- Constructor state: `super('extensions.uninstall', localize('uninstall', "Uninstall"),
'extension-action uninstall', false)`. -/
def initial : ActionState :=
  { enabled := false, label := "Uninstall", cls := "extension-action uninstall" }

/-- `UninstallAction.update()`: only `this.enabled` is written; label and class stay as
the constructor set them. -/
def update (ext : Option IExtension) (s : ActionState) : ActionState :=
  match ext with
  | none => { s with enabled := false }
  | some e =>
    if e.type ≠ LocalExtensionType.User then
      { s with enabled := false }
    else
      { s with enabled :=
          decide (e.state = ExtensionState.Installed)
          || decide (e.state = ExtensionState.Disabled)
          || decide (e.state = ExtensionState.NeedsReload) }

/-- The external calls `UninstallAction.run()` makes after the confirmation prompt is
answered: identifiers of the extensions passed to `extensionsWorkbenchService.uninstall`,
and whether the immediately returned promise is `TPromise.as(null)`. -/
structure RunResult where
  uninstallCalls : List String
  returnsResolvedNull : Bool
  deriving DecidableEq, Repr

/-- `UninstallAction.run()`: `window.confirm(...)` is abstracted by its boolean answer
`confirmed`.  On decline the method returns `TPromise.as(null)` without calling
`uninstall`; on confirm it issues one `uninstall` call (followed by an informational
message). -/
def run (confirmed : Bool) (e : IExtension) : RunResult :=
  if !confirmed then
    { uninstallCalls := [], returnsResolvedNull := true }
  else
    { uninstallCalls := [e.identifier], returnsResolvedNull := false }

end UninstallAction

namespace UpdateAction

def EnabledClass : String := "extension-action update"
def DisabledClass : String := EnabledClass ++ " disabled"

/-- Constructor state: `super('extensions.update', localize('updateAction', "Update"),
UpdateAction.DisabledClass, false)`. -/
def initial : ActionState :=
  { enabled := false, label := "Update", cls := DisabledClass }

/-- `UpdateAction.update()`: writes `this.enabled` and `this.class`; the label is never
touched after construction. -/
def update (canInstall : IExtension → Bool) (ext : Option IExtension)
    (s : ActionState) : ActionState :=
  match ext with
  | none =>
    { s with enabled := false, cls := DisabledClass }
  | some e =>
    if e.type ≠ LocalExtensionType.User then
      { s with enabled := false, cls := DisabledClass }
    else
      let canI := canInstall e
      let isInstalled := decide (e.state = ExtensionState.Installed)
        || decide (e.state = ExtensionState.Disabled)
      let enabled := canI && isInstalled && e.outdated
      { s with enabled := enabled,
               cls := if enabled then EnabledClass else DisabledClass }

end UpdateAction

namespace EnableAction

def EnabledClass : String := "extension-action enable"
def DisabledClass : String := EnabledClass ++ " disabled"

def initial : ActionState :=
  { enabled := false, label := "Enable", cls := DisabledClass }

/-- `EnableAction.update()`. -/
def update (ext : Option IExtension) (s : ActionState) : ActionState :=
  match ext with
  | none =>
    { s with enabled := false, cls := DisabledClass }
  | some e =>
    let enabled := decide (e.state = ExtensionState.Disabled)
    { s with enabled := enabled,
             cls := if enabled then EnabledClass else DisabledClass }

end EnableAction

namespace DisableAction

def EnabledClass : String := "extension-action disable"
def DisabledClass : String := EnabledClass ++ " disabled"

def initial : ActionState :=
  { enabled := false, label := "Disable", cls := DisabledClass }

/-- `DisableAction.update()`. -/
def update (ext : Option IExtension) (s : ActionState) : ActionState :=
  match ext with
  | none =>
    { s with enabled := false, cls := DisabledClass }
  | some e =>
    let enabled := decide (e.state = ExtensionState.Installed)
    { s with enabled := enabled,
             cls := if enabled then EnabledClass else DisabledClass }

end DisableAction

namespace ReloadAction

def EnabledClass : String := "extension-action reload"
def DisabledClass : String := EnabledClass ++ " disabled"

def initial : ActionState :=
  { enabled := false, label := "Reload", cls := DisabledClass }

/-- `ReloadAction.update()`. -/
def update (ext : Option IExtension) (s : ActionState) : ActionState :=
  match ext with
  | none =>
    { s with enabled := false, cls := DisabledClass }
  | some e =>
    let enabled := decide (e.state = ExtensionState.NeedsReload)
    { s with enabled := enabled,
             cls := if enabled then EnabledClass else DisabledClass }

end ReloadAction

namespace CombinedInstallAction

def NoExtensionClass : String := "extension-action install no-extension"

/-- Constructor state: `super('extensions.combinedInstall', '', '', false)`. -/
def initial : ActionState := { enabled := false, label := "", cls := "" }

/-- `CombinedInstallAction.update()`: reads the bound extension and the current derived
states of its two children (`installAction`, `uninstallAction`), writing its own
`{enabled, label, class}` over the previous state `s`.  The first branch leaves the
label untouched. -/
def update (ext : Option IExtension) (install uninstall : ActionState)
    (s : ActionState) : ActionState :=
  match ext with
  | none =>
    { s with enabled := false, cls := NoExtensionClass }
  | some e =>
    if e.type = LocalExtensionType.System then
      { s with enabled := false, cls := NoExtensionClass }
    else if install.enabled then
      { s with enabled := true, label := install.label, cls := install.cls }
    else if uninstall.enabled then
      { s with enabled := true, label := uninstall.label, cls := uninstall.cls }
    else if e.state = ExtensionState.Installing then
      { s with enabled := false, label := install.label, cls := install.cls }
    else
      { s with enabled := false, label := install.label, cls := install.cls }

/-- The derived state of the owned `installAction` child: constructed fresh and kept in
sync with the shared bound extension by its own `update`. -/
def installChild (canInstall : IExtension → Bool) (ext : Option IExtension) :
    ActionState :=
  InstallAction.update canInstall ext InstallAction.initial

/-- The derived state of the owned `uninstallAction` child. -/
def uninstallChild (ext : Option IExtension) : ActionState :=
  UninstallAction.update ext UninstallAction.initial

/-- What `CombinedInstallAction.run()` does: delegate to a child's `run`, or return
`TPromise.as(null)`. -/
inductive RunChoice
  | installRun
  | uninstallRun
  | resolvedNull
  deriving DecidableEq, Repr

/-- `CombinedInstallAction.run()`. -/
def run (install uninstall : ActionState) : RunChoice :=
  if install.enabled then RunChoice.installRun
  else if uninstall.enabled then RunChoice.uninstallRun
  else RunChoice.resolvedNull

end CombinedInstallAction

/-- Modelled from the spec: `TPromise` (from `vs/base/common/winjs.base`) is not under
`src/`; the spec describes bulk `run()` as issuing "one external operation per candidate
concurrently" and completing "when all finish, independently of individual failures".  A
promise is abstracted as the time at which it completes together with a success flag. -/
structure TPromise where
  completesAt : Nat
  ok : Bool
  deriving DecidableEq, Repr

/-- Modelled from the spec: `TPromise.join` completes when the last of the joined
promises completes — its completion time is the maximum of theirs, whatever their
success flags — and is successful iff all were. -/
def TPromise.join (ps : List TPromise) : TPromise :=
  { completesAt := (ps.map TPromise.completesAt).foldr max 0,
    ok := ps.all TPromise.ok }

namespace UpdateAllAction

/-- The `outdated` getter: filters the service's `local` collection. -/
def outdated (canInstall : IExtension → Bool) (localExts : List IExtension) :
    List IExtension :=
  localExts.filter fun e =>
    canInstall e
    && decide (e.type = LocalExtensionType.User)
    && (decide (e.state = ExtensionState.Installed)
        || decide (e.state = ExtensionState.Disabled))
    && e.outdated

/-- `UpdateAllAction.update()`: `this.enabled = this.outdated.length > 0`. -/
def updateEnabled (canInstall : IExtension → Bool)
    (localExts : List IExtension) : Bool :=
  decide (0 < (outdated canInstall localExts).length)

/-- The `install` calls `UpdateAllAction.run(prompt)` issues: one per element of
`outdated`, each carrying the `promptToInstallDependencies` flag. -/
def runRequests (canInstall : IExtension → Bool) (localExts : List IExtension)
    (prompt : Bool) : List (IExtension × Bool) :=
  (outdated canInstall localExts).map fun e => (e, prompt)

/-- The promise `UpdateAllAction.run(prompt)` returns:
`TPromise.join(this.outdated.map(e => install(e, prompt)))`, with the service's
`install` abstracted by the promise it returns for each call. -/
def run (canInstall : IExtension → Bool) (localExts : List IExtension)
    (install : IExtension → Bool → TPromise) (prompt : Bool) : TPromise :=
  TPromise.join ((outdated canInstall localExts).map fun e => install e prompt)

end UpdateAllAction

namespace ChangeSortAction

/-- The observable state the constructor establishes (the sort-parameter pair it stores;
the initial query is `Query.parse('')` and `enabled` is `false`). -/
structure State where
  sortBy : Option String
  sortOrder : Option String
  enabled : Bool
  deriving DecidableEq, Repr

/-- `ChangeSortAction`'s constructor: `if (sortBy === undefined && sortOrder ===
undefined) { throw new Error('bad arguments'); }`, else construction succeeds with
`enabled = false`. -/
def construct (sortBy sortOrder : Option String) : Except String State :=
  if sortBy = none ∧ sortOrder = none then
    Except.error "bad arguments"
  else
    Except.ok { sortBy := sortBy, sortOrder := sortOrder, enabled := false }

end ChangeSortAction

namespace InstallWidget

/-- The elements `InstallWidget.render()` appends to its (cleared) container: the
cloud-download icon span and the count span with its text. -/
inductive Element
  | downloadIcon
  | countText (text : String)
  deriving DecidableEq, Repr

/-- The compact label computed in `render()` when `options.small` is set: strictly above
one million, `Math.floor(installCount / 1000000)` with an `M` suffix; strictly above one
thousand, `Math.floor(installCount / 1000)` with a `K` suffix; otherwise `installLabel`
stays undefined. -/
def installLabel (small : Bool) (installCount : Nat) : Option String :=
  if small then
    if installCount > 1000000 then
      some (toString (installCount / 1000000) ++ "M")
    else if installCount > 1000 then
      some (toString (installCount / 1000) ++ "K")
    else
      none
  else
    none

/-- `InstallWidget.render()`: empty when no extension is bound or its `installCount` is
null; otherwise the icon and the count span whose text is
`installLabel || String(installCount)` (JS `||`: the label when defined and non-empty,
else the exact number). -/
def render (small : Bool) (ext : Option IExtension) : List Element :=
  match ext with
  | none => []
  | some e =>
    match e.installCount with
    | none => []
    | some installCount =>
      let text :=
        match installLabel small installCount with
        | some s => if s.isEmpty then toString installCount else s
        | none => toString installCount
      [Element.downloadIcon, Element.countText text]

end InstallWidget

namespace RatingsWidget

inductive Star
  | full
  | half
  | empty
  deriving DecidableEq, Repr

/-- The elements `RatingsWidget.render()` appends to its (cleared) container. -/
inductive Element
  | star (s : Star)
  | countText (text : String)
  deriving DecidableEq, Repr

/-- `Math.round(rating * 2) / 2`: JS `Math.round` rounds half toward positive
infinity, i.e. `⌊x + 1/2⌋`. -/
def roundedRating (rating : ℚ) : ℚ :=
  (⌊rating * 2 + 1 / 2⌋ : ℚ) / 2

/-- `RatingsWidget.render()`: nothing when no extension is bound or its rating is null
(the rounded rating is computed before the null check but unused on that path); in small
mode nothing when `ratingCount === 0`, else one full star and the rounded value as text;
otherwise five stars, star `i` (1-based) full when `rating >= i`, half when
`rating >= i - 0.5`, empty otherwise. -/
def render (small : Bool) (ext : Option IExtension) : List Element :=
  match ext with
  | none => []
  | some e =>
    match e.rating with
    | none => []
    | some r =>
      let rating := roundedRating r
      if small && decide (e.ratingCount = 0) then []
      else if small then
        [Element.star Star.full, Element.countText (toString rating)]
      else
        (List.range 5).map fun i =>
          let bound : ℚ := (i : ℚ) + 1
          if rating ≥ bound then Element.star Star.full
          else if rating ≥ bound - 1 / 2 then Element.star Star.half
          else Element.star Star.empty

end RatingsWidget

/-! ### Helper lemmas shared by the claim theorems -/

/-- Characterisation of `InstallAction.update`'s enablement. -/
lemma installUpdate_enabled_iff (canInstall : IExtension → Bool) (e : IExtension)
    (s : ActionState) :
    (InstallAction.update canInstall (some e) s).enabled = true ↔
      e.type = LocalExtensionType.User ∧ canInstall e = true
        ∧ e.state = ExtensionState.Uninstalled := by
  rcases hty : e.type
  · simp [InstallAction.update, hty]
  · rcases hst : e.state <;> simp [InstallAction.update, hty, hst]

/-- Characterisation of `UninstallAction.update`'s enablement. -/
lemma uninstallUpdate_enabled_iff (e : IExtension) (s : ActionState) :
    (UninstallAction.update (some e) s).enabled = true ↔
      e.type = LocalExtensionType.User
        ∧ (e.state = ExtensionState.Installed ∨ e.state = ExtensionState.Disabled
            ∨ e.state = ExtensionState.NeedsReload) := by
  rcases hty : e.type <;> simp [UninstallAction.update, hty, or_assoc]

/-- Characterisation of `UpdateAction.update`'s enablement. -/
lemma updateUpdate_enabled_iff (canInstall : IExtension → Bool) (e : IExtension)
    (s : ActionState) :
    (UpdateAction.update canInstall (some e) s).enabled = true ↔
      e.type = LocalExtensionType.User ∧ canInstall e = true
        ∧ (e.state = ExtensionState.Installed ∨ e.state = ExtensionState.Disabled)
        ∧ e.outdated = true := by
  rcases hty : e.type <;>
    simp [UpdateAction.update, hty, and_assoc]

/-- `UninstallAction.update` leaves the label and class untouched. -/
lemma uninstallUpdate_label_cls (ext : Option IExtension) (s : ActionState) :
    (UninstallAction.update ext s).label = s.label
      ∧ (UninstallAction.update ext s).cls = s.cls := by
  rcases ext with _ | e
  · exact ⟨rfl, rfl⟩
  · simp only [UninstallAction.update]
    split <;> exact ⟨rfl, rfl⟩

/-- Every element of a list is bounded by its `foldr max 0`. -/
lemma le_foldr_max {l : List ℕ} {x : ℕ} (hx : x ∈ l) : x ≤ l.foldr max 0 := by
  induction l with
  | nil => cases hx
  | cons a t ih =>
    rcases List.mem_cons.mp hx with h | h
    · exact h ▸ le_max_left _ _
    · exact le_trans (ih h) (le_max_right _ _)

/-- `foldr max 0` is the least upper bound of a list of naturals. -/
lemma foldr_max_le {l : List ℕ} {t : ℕ} (h : ∀ x ∈ l, x ≤ t) : l.foldr max 0 ≤ t := by
  induction l with
  | nil => exact Nat.zero_le t
  | cons a s ih =>
    exact max_le (h a (List.mem_cons_self a s)) (ih fun x hx => h x (List.mem_cons_of_mem a hx))

/-- Appending a non-empty string leaves a non-empty string (the JS truthiness test
`installLabel || ...` never falls back once a label was computed). -/
lemma append_isEmpty_false (s t : String) (ht : t ≠ "") : (s ++ t).isEmpty = false := by
  rw [Bool.eq_false_iff, Ne, String.isEmpty_iff]
  obtain ⟨sd⟩ := s
  obtain ⟨td⟩ := t
  intro heq
  apply ht
  have hd : sd ++ td = [] := congrArg String.data heq
  have htd : td = [] := (List.append_eq_nil.mp hd).2
  simp [htd]

/-! ### Claim theorems -/

/-- A bound System-type extension, installed and outdated, against an affirmative
`canInstall`: a concrete input on which C1 as stated fails. -/
def sysOutdatedExt : IExtension :=
  { identifier := "ext.sys", displayName := "Sys", state := ExtensionState.Installed,
    type := LocalExtensionType.System, installCount := none, rating := none,
    ratingCount := 0, outdated := true }

/-- C1 (counterexample): for the bound extension `sysOutdatedExt`, `canInstall` answers
true, the state is Installed and the outdated flag is true, yet `UpdateAction.update`
derives `enabled = false` — the claim's "iff" omits the derivation's requirement that
the extension's type be User. -/
theorem C1_counterexample :
    (fun _ : IExtension => true) sysOutdatedExt = true
    ∧ sysOutdatedExt.state = ExtensionState.Installed
    ∧ sysOutdatedExt.outdated = true
    ∧ (UpdateAction.update (fun _ => true) (some sysOutdatedExt)
        UpdateAction.initial).enabled = false :=
  ⟨rfl, rfl, rfl, by decide⟩

/-- C1 (amended): for every bound extension record, `UpdateAction.update` sets
`enabled` to true iff the extension's type is User, the service's `canInstall` returns
true for it, its state is Installed or Disabled, and its outdated flag is true. -/
theorem C1_update_action_enabled (canInstall : IExtension → Bool) (e : IExtension)
    (s : ActionState) :
    (UpdateAction.update canInstall (some e) s).enabled = true ↔
      e.type = LocalExtensionType.User ∧ canInstall e = true
        ∧ (e.state = ExtensionState.Installed ∨ e.state = ExtensionState.Disabled)
        ∧ e.outdated = true :=
  updateUpdate_enabled_iff canInstall e s

/-- A bound System-type extension in state Uninstalled, against an affirmative
`canInstall`: a concrete input on which C2 as stated fails. -/
def sysUninstalledExt : IExtension :=
  { identifier := "ext.sys2", displayName := "Sys2", state := ExtensionState.Uninstalled,
    type := LocalExtensionType.System, installCount := none, rating := none,
    ratingCount := 0, outdated := false }

/-- C2 (counterexample): for the bound extension `sysUninstalledExt`, `canInstall`
answers true and the state is Uninstalled, yet `InstallAction.update` derives
`enabled = false` — the claim's "iff" omits the derivation's early exit for System-type
extensions. -/
theorem C2_counterexample :
    (fun _ : IExtension => true) sysUninstalledExt = true
    ∧ sysUninstalledExt.state = ExtensionState.Uninstalled
    ∧ (InstallAction.update (fun _ => true) (some sysUninstalledExt)
        InstallAction.initial).enabled = false :=
  ⟨rfl, rfl, by decide⟩

/-- C2 (amended): for every bound extension record, `InstallAction.update` sets
`enabled` to true iff the extension's type is User (not System), the service's
`canInstall` returns true for it, and its state is Uninstalled. -/
theorem C2_install_action_enabled (canInstall : IExtension → Bool) (e : IExtension)
    (s : ActionState) :
    (InstallAction.update canInstall (some e) s).enabled = true ↔
      e.type = LocalExtensionType.User ∧ canInstall e = true
        ∧ e.state = ExtensionState.Uninstalled :=
  installUpdate_enabled_iff canInstall e s

/-- C7: `UninstallAction.run` with the confirmation declined issues no `uninstall` call
and returns the resolved null promise; with the confirmation given it issues exactly the
one `uninstall` call for the bound extension. -/
theorem C7_uninstall_decline_noop (e : IExtension) :
    (UninstallAction.run false e).uninstallCalls = []
    ∧ (UninstallAction.run false e).returnsResolvedNull = true
    ∧ (UninstallAction.run true e).uninstallCalls = [e.identifier]
    ∧ (UninstallAction.run true e).returnsResolvedNull = false :=
  ⟨rfl, rfl, rfl, rfl⟩

/-- C8: `ChangeSortAction`'s constructor throws exactly when both `sortBy` and
`sortOrder` are undefined; with at least one of them defined, construction succeeds
(storing the pair, with `enabled` initially false). -/
theorem C8_changeSort_construction :
    ChangeSortAction.construct none none = Except.error "bad arguments"
    ∧ ∀ sortBy sortOrder : Option String, (sortBy ≠ none ∨ sortOrder ≠ none) →
        ChangeSortAction.construct sortBy sortOrder =
          Except.ok { sortBy := sortBy, sortOrder := sortOrder, enabled := false } := by
  refine ⟨rfl, fun sb so h => ?_⟩
  unfold ChangeSortAction.construct
  rw [if_neg (by tauto)]

/-- C8 (witness): a sort-by-installs configuration constructs successfully. -/
theorem C8_changeSort_construction_witness :
    ChangeSortAction.construct (some "installs") none =
      Except.ok { sortBy := some "installs", sortOrder := none, enabled := false } :=
  C8_changeSort_construction.2 (some "installs") none (Or.inl (by simp))

/-- C10: with no extension bound (`none`), every single-extension action's derivation
sets `enabled` to false: Install, Uninstall, Update, Enable, Disable and Reload. -/
theorem C10_unbound_never_enabled (canInstall : IExtension → Bool) (s : ActionState) :
    (InstallAction.update canInstall none s).enabled = false
    ∧ (UninstallAction.update none s).enabled = false
    ∧ (UpdateAction.update canInstall none s).enabled = false
    ∧ (EnableAction.update none s).enabled = false
    ∧ (DisableAction.update none s).enabled = false
    ∧ (ReloadAction.update none s).enabled = false :=
  ⟨rfl, rfl, rfl, rfl, rfl, rfl⟩

/-- C5: in non-small mode the ratings widget renders a rating of 4.3 as four full stars
followed by one half star (the rating is rounded to the nearest 0.5, half up, before
star assignment), and renders an empty container when the bound extension's rating is
null. -/
theorem C5_ratings_stars (e : IExtension) :
    (e.rating = some (43 / 10) →
      RatingsWidget.render false (some e) =
        [RatingsWidget.Element.star RatingsWidget.Star.full,
         RatingsWidget.Element.star RatingsWidget.Star.full,
         RatingsWidget.Element.star RatingsWidget.Star.full,
         RatingsWidget.Element.star RatingsWidget.Star.full,
         RatingsWidget.Element.star RatingsWidget.Star.half])
    ∧ (e.rating = none → RatingsWidget.render false (some e) = []) := by
  constructor
  · intro h
    have hr : RatingsWidget.roundedRating (43 / 10) = 9 / 2 := by
      unfold RatingsWidget.roundedRating
      norm_num [Int.floor_eq_iff]
    simp only [RatingsWidget.render, h, hr, Bool.false_and]
    simp [List.range_succ]
    norm_num
  · intro h
    simp only [RatingsWidget.render, h]

/-- A concrete extension rated 4.3 and a concrete unrated one. -/
def ratedExt : IExtension :=
  { identifier := "ext.rated", displayName := "Rated", state := ExtensionState.Installed,
    type := LocalExtensionType.User, installCount := none, rating := some (43 / 10),
    ratingCount := 12, outdated := false }

def unratedExt : IExtension :=
  { identifier := "ext.unrated", displayName := "Unrated",
    state := ExtensionState.Installed, type := LocalExtensionType.User,
    installCount := none, rating := none, ratingCount := 0, outdated := false }

/-- C5 (witness): the 4.3-rated extension gets four full stars and a half star; the
unrated one gets an empty container. -/
theorem C5_ratings_stars_witness :
    RatingsWidget.render false (some ratedExt) =
      [RatingsWidget.Element.star RatingsWidget.Star.full,
       RatingsWidget.Element.star RatingsWidget.Star.full,
       RatingsWidget.Element.star RatingsWidget.Star.full,
       RatingsWidget.Element.star RatingsWidget.Star.full,
       RatingsWidget.Element.star RatingsWidget.Star.half]
    ∧ RatingsWidget.render false (some unratedExt) = [] :=
  ⟨(C5_ratings_stars ratedExt).1 rfl, (C5_ratings_stars unratedExt).2 rfl⟩

/-- C6: in compact (small) mode the install-count widget shows counts strictly above one
million as `⌊count / 1000000⌋` with an `M` suffix, counts strictly above one thousand as
`⌊count / 1000⌋` with a `K` suffix, and the exact number otherwise — in particular
2,500,000 as "2M", 15,000 as "15K" and 900 as "900". -/
theorem C6_install_count_compact (e : IExtension) (c : Nat)
    (h : e.installCount = some c) :
    InstallWidget.render true (some e) =
      [InstallWidget.Element.downloadIcon,
       InstallWidget.Element.countText
        (if 1000000 < c then toString (c / 1000000) ++ "M"
         else if 1000 < c then toString (c / 1000) ++ "K"
         else toString c)] := by
  simp only [InstallWidget.render, h]
  rcases Nat.lt_or_ge 1000000 c with h1 | h1
  · have hl : InstallWidget.installLabel true c = some (toString (c / 1000000) ++ "M") := by
      simp [InstallWidget.installLabel, h1]
    rw [hl]
    simp [append_isEmpty_false _ "M" (by decide), h1]
  · rcases Nat.lt_or_ge 1000 c with h2 | h2
    · have hl : InstallWidget.installLabel true c = some (toString (c / 1000) ++ "K") := by
        simp [InstallWidget.installLabel, Nat.not_lt.mpr h1, h2]
      rw [hl]
      simp [append_isEmpty_false _ "K" (by decide), Nat.not_lt.mpr h1, h2]
    · have hl : InstallWidget.installLabel true c = none := by
        simp [InstallWidget.installLabel, Nat.not_lt.mpr h1, Nat.not_lt.mpr h2]
      rw [hl]
      simp [Nat.not_lt.mpr h1, Nat.not_lt.mpr h2]

/-- A concrete extension with a given install count. -/
def countExt (c : Nat) : IExtension :=
  { identifier := "ext.count", displayName := "Count", state := ExtensionState.Installed,
    type := LocalExtensionType.User, installCount := some c, rating := none,
    ratingCount := 0, outdated := false }

/-- C6 (witness): 2,500,000 renders as "2M", 15,000 as "15K" and 900 as "900". -/
theorem C6_install_count_compact_witness :
    InstallWidget.render true (some (countExt 2500000)) =
      [InstallWidget.Element.downloadIcon, InstallWidget.Element.countText "2M"]
    ∧ InstallWidget.render true (some (countExt 15000)) =
      [InstallWidget.Element.downloadIcon, InstallWidget.Element.countText "15K"]
    ∧ InstallWidget.render true (some (countExt 900)) =
      [InstallWidget.Element.downloadIcon, InstallWidget.Element.countText "900"] :=
  ⟨(C6_install_count_compact (countExt 2500000) 2500000 rfl).trans (by decide),
   (C6_install_count_compact (countExt 15000) 15000 rfl).trans (by decide),
   (C6_install_count_compact (countExt 900) 900 rfl).trans (by decide)⟩


/-- C4: with both children bound to the same extension, the composite's
`{enabled, label, class}` triple equals that of the first enabled child in priority
order (Install before Uninstall); with no child enabled the composite is disabled; and
`run` delegates to the first enabled child, returning the resolved null promise when
none is enabled. -/
theorem C4_combined_first_enabled_child (e : IExtension)
    (canInstall : IExtension → Bool) (s : ActionState) :
    ((CombinedInstallAction.installChild canInstall (some e)).enabled = true →
      CombinedInstallAction.update (some e)
          (CombinedInstallAction.installChild canInstall (some e))
          (CombinedInstallAction.uninstallChild (some e)) s
        = { enabled := (CombinedInstallAction.installChild canInstall (some e)).enabled,
            label := (CombinedInstallAction.installChild canInstall (some e)).label,
            cls := (CombinedInstallAction.installChild canInstall (some e)).cls })
    ∧ ((CombinedInstallAction.installChild canInstall (some e)).enabled = false →
       (CombinedInstallAction.uninstallChild (some e)).enabled = true →
      CombinedInstallAction.update (some e)
          (CombinedInstallAction.installChild canInstall (some e))
          (CombinedInstallAction.uninstallChild (some e)) s
        = { enabled := (CombinedInstallAction.uninstallChild (some e)).enabled,
            label := (CombinedInstallAction.uninstallChild (some e)).label,
            cls := (CombinedInstallAction.uninstallChild (some e)).cls })
    ∧ ((CombinedInstallAction.installChild canInstall (some e)).enabled = false →
       (CombinedInstallAction.uninstallChild (some e)).enabled = false →
      (CombinedInstallAction.update (some e)
          (CombinedInstallAction.installChild canInstall (some e))
          (CombinedInstallAction.uninstallChild (some e)) s).enabled = false)
    ∧ ((CombinedInstallAction.installChild canInstall (some e)).enabled = true →
      CombinedInstallAction.run (CombinedInstallAction.installChild canInstall (some e))
          (CombinedInstallAction.uninstallChild (some e))
        = CombinedInstallAction.RunChoice.installRun)
    ∧ ((CombinedInstallAction.installChild canInstall (some e)).enabled = false →
       (CombinedInstallAction.uninstallChild (some e)).enabled = true →
      CombinedInstallAction.run (CombinedInstallAction.installChild canInstall (some e))
          (CombinedInstallAction.uninstallChild (some e))
        = CombinedInstallAction.RunChoice.uninstallRun)
    ∧ ((CombinedInstallAction.installChild canInstall (some e)).enabled = false →
       (CombinedInstallAction.uninstallChild (some e)).enabled = false →
      CombinedInstallAction.run (CombinedInstallAction.installChild canInstall (some e))
          (CombinedInstallAction.uninstallChild (some e))
        = CombinedInstallAction.RunChoice.resolvedNull) := by
  have hsys : (CombinedInstallAction.installChild canInstall (some e)).enabled = true →
      e.type ≠ LocalExtensionType.System := by
    intro h hcon
    have := (installUpdate_enabled_iff canInstall e InstallAction.initial).mp h
    rw [hcon] at this
    exact absurd this.1 (by simp)
  refine ⟨?_, ?_, ?_, ?_, ?_, ?_⟩
  · intro hi
    simp [CombinedInstallAction.update, hsys hi, hi]
  · intro hi hu
    simp [CombinedInstallAction.update, hi, hu]
    have : e.type = LocalExtensionType.User :=
      ((uninstallUpdate_enabled_iff e UninstallAction.initial).mp hu).1
    simp [CombinedInstallAction.uninstallChild, this]
  · intro hi hu
    by_cases hty : e.type = LocalExtensionType.System
    · simp [CombinedInstallAction.update, hty]
    · rcases hst : e.state <;> simp [CombinedInstallAction.update, hty, hi, hu, hst]
  · intro hi
    simp [CombinedInstallAction.run, hi]
  · intro hi hu
    simp [CombinedInstallAction.run, hi, hu]
  · intro hi hu
    simp [CombinedInstallAction.run, hi, hu]

/-- A concrete, uninstalled User-type extension on which the Install child is the first
enabled one. -/
def userUninstalledExt : IExtension :=
  { identifier := "ext.user", displayName := "User", state := ExtensionState.Uninstalled,
    type := LocalExtensionType.User, installCount := none, rating := none,
    ratingCount := 0, outdated := false }

/-- C4 (witness): on `userUninstalledExt` with an affirmative `canInstall`, the Install
child is enabled, the composite takes its triple, and `run` delegates to it. -/
theorem C4_combined_first_enabled_child_witness :
    CombinedInstallAction.update (some userUninstalledExt)
        (CombinedInstallAction.installChild (fun _ => true) (some userUninstalledExt))
        (CombinedInstallAction.uninstallChild (some userUninstalledExt))
        CombinedInstallAction.initial
      = { enabled :=
            (CombinedInstallAction.installChild (fun _ => true)
              (some userUninstalledExt)).enabled,
          label :=
            (CombinedInstallAction.installChild (fun _ => true)
              (some userUninstalledExt)).label,
          cls :=
            (CombinedInstallAction.installChild (fun _ => true)
              (some userUninstalledExt)).cls }
    ∧ CombinedInstallAction.run
        (CombinedInstallAction.installChild (fun _ => true) (some userUninstalledExt))
        (CombinedInstallAction.uninstallChild (some userUninstalledExt))
      = CombinedInstallAction.RunChoice.installRun :=
  ⟨(C4_combined_first_enabled_child userUninstalledExt (fun _ => true)
      CombinedInstallAction.initial).1 (by decide),
   (C4_combined_first_enabled_child userUninstalledExt (fun _ => true)
      CombinedInstallAction.initial).2.2.2.1 (by decide)⟩

/-- C3: the bulk Update-All action is enabled iff some extension in the local collection
passes `canInstall`, is User-type, is in state Installed or Disabled, and is outdated;
`run` issues exactly one install request per such candidate, and the joined promise it
returns completes exactly when the last of those installs completes — no earlier, no
later — with a completion time independent of the installs' success or failure. -/
theorem C3_update_all (canInstall : IExtension → Bool) (localExts : List IExtension)
    (prompt : Bool) :
    (UpdateAllAction.updateEnabled canInstall localExts = true ↔
      ∃ e ∈ localExts, canInstall e = true ∧ e.type = LocalExtensionType.User
        ∧ (e.state = ExtensionState.Installed ∨ e.state = ExtensionState.Disabled)
        ∧ e.outdated = true)
    ∧ (UpdateAllAction.runRequests canInstall localExts prompt
        = (UpdateAllAction.outdated canInstall localExts).map fun e => (e, prompt))
    ∧ (∀ install : IExtension → Bool → TPromise,
        ∀ e ∈ UpdateAllAction.outdated canInstall localExts,
        (install e prompt).completesAt ≤
          (UpdateAllAction.run canInstall localExts install prompt).completesAt)
    ∧ (∀ (install : IExtension → Bool → TPromise) (t : ℕ),
        (∀ e ∈ UpdateAllAction.outdated canInstall localExts,
          (install e prompt).completesAt ≤ t) →
        (UpdateAllAction.run canInstall localExts install prompt).completesAt ≤ t)
    ∧ (∀ install instAlt : IExtension → Bool → TPromise,
        (∀ e b, (install e b).completesAt = (instAlt e b).completesAt) →
        (UpdateAllAction.run canInstall localExts install prompt).completesAt
          = (UpdateAllAction.run canInstall localExts instAlt prompt).completesAt) := by
  refine ⟨?_, rfl, ?_, ?_, ?_⟩
  · simp [UpdateAllAction.updateEnabled, UpdateAllAction.outdated,
      List.length_pos_iff_exists_mem, List.mem_filter, and_assoc]
  · intro install e he
    apply le_foldr_max
    exact List.mem_map_of_mem _ (List.mem_map_of_mem _ he)
  · intro install t h
    apply foldr_max_le
    intro x hx
    simp only [UpdateAllAction.run, TPromise.join, List.mem_map] at hx
    obtain ⟨p, ⟨e, he, rfl⟩, rfl⟩ := hx
    exact h e he
  · intro install instAlt hsame
    simp only [UpdateAllAction.run, TPromise.join, List.map_map]
    congr 1
    exact List.map_congr_left fun e _ => hsame e prompt

/-- A concrete User-type, installed, outdated extension: an Update-All candidate. -/
def userOutdatedExt : IExtension :=
  { identifier := "ext.outdated", displayName := "Outdated",
    state := ExtensionState.Installed, type := LocalExtensionType.User,
    installCount := none, rating := none, ratingCount := 0, outdated := true }

/-- C3 (witness): with one outdated candidate the bulk action is enabled, and joining
an install promise that completes at time 5 yields completion by time 5. -/
theorem C3_update_all_witness :
    UpdateAllAction.updateEnabled (fun _ => true) [userOutdatedExt] = true
    ∧ (UpdateAllAction.run (fun _ => true) [userOutdatedExt]
        (fun _ _ => { completesAt := 5, ok := false }) true).completesAt ≤ 5 :=
  ⟨(C3_update_all (fun _ => true) [userOutdatedExt] true).1.mpr
      ⟨userOutdatedExt, by simp, by decide⟩,
   (C3_update_all (fun _ => true) [userOutdatedExt] true).2.2.2.1
      (fun _ _ => { completesAt := 5, ok := false }) 5 (fun _ _ => Nat.le_refl 5)⟩

/-- C9 (counterexample): the combined install action's derivation is not a pure
function of the current bound-extension snapshot and `canInstall` answer: its
unbound/System branch writes `enabled` and `class` but keeps the prior mutable label.
Bound to the System-type `sysOutdatedExt` (both children in their derived, disabled
states), a composite that was previously bound to `userUninstalledExt` (which set its
label to "Install") and a freshly constructed one (label "") derive different triples
from identical current inputs. -/
theorem C9_counterexample :
    (CombinedInstallAction.update (some sysOutdatedExt)
        (CombinedInstallAction.installChild (fun _ => true) (some sysOutdatedExt))
        (CombinedInstallAction.uninstallChild (some sysOutdatedExt))
        (CombinedInstallAction.update (some userUninstalledExt)
          (CombinedInstallAction.installChild (fun _ => true) (some userUninstalledExt))
          (CombinedInstallAction.uninstallChild (some userUninstalledExt))
          CombinedInstallAction.initial)).label = "Install"
    ∧ (CombinedInstallAction.update (some sysOutdatedExt)
        (CombinedInstallAction.installChild (fun _ => true) (some sysOutdatedExt))
        (CombinedInstallAction.uninstallChild (some sysOutdatedExt))
        CombinedInstallAction.initial).label = ""
    ∧ CombinedInstallAction.update (some sysOutdatedExt)
        (CombinedInstallAction.installChild (fun _ => true) (some sysOutdatedExt))
        (CombinedInstallAction.uninstallChild (some sysOutdatedExt))
        (CombinedInstallAction.update (some userUninstalledExt)
          (CombinedInstallAction.installChild (fun _ => true) (some userUninstalledExt))
          (CombinedInstallAction.uninstallChild (some userUninstalledExt))
          CombinedInstallAction.initial)
      ≠ CombinedInstallAction.update (some sysOutdatedExt)
        (CombinedInstallAction.installChild (fun _ => true) (some sysOutdatedExt))
        (CombinedInstallAction.uninstallChild (some sysOutdatedExt))
        CombinedInstallAction.initial :=
  ⟨by decide, by decide, by decide⟩

/-- C9 (amended): each widget's rendered content and each single-extension action's
(Install, Uninstall, Update, Enable, Disable, Reload) derived `{enabled, label, class}`
triple is a deterministic pure function of the bound extension snapshot's fields and
the `canInstall` answer: the fields each derivation writes depend only on those inputs;
the fields it never writes (Uninstall's label and class, the label of Update, Enable,
Disable and Reload) are construction-time constants, so runs from states agreeing on
them produce identical triples; every derivation is idempotent; and the widgets'
rendered output depends only on the snapshot's display fields.  The combined
install/uninstall composite's `enabled` and `class` are likewise pure and its
derivation idempotent, but (per the counterexample) its label is not pure: the
unbound/System branch retains the prior mutable label. -/
theorem C9_derivation_pure_amended :
    (∀ (canInstall : IExtension → Bool) (ext : Option IExtension) (s₁ s₂ : ActionState),
        InstallAction.update canInstall ext s₁ = InstallAction.update canInstall ext s₂)
    ∧ (∀ (canInstall : IExtension → Bool) (ext : Option IExtension) (s : ActionState),
        InstallAction.update canInstall ext (InstallAction.update canInstall ext s)
          = InstallAction.update canInstall ext s)
    ∧ (∀ (ext : Option IExtension) (s₁ s₂ : ActionState),
        s₁.label = s₂.label → s₁.cls = s₂.cls →
        UninstallAction.update ext s₁ = UninstallAction.update ext s₂)
    ∧ (∀ (ext : Option IExtension) (s : ActionState),
        (UninstallAction.update ext s).label = s.label
          ∧ (UninstallAction.update ext s).cls = s.cls)
    ∧ (∀ (ext : Option IExtension) (s : ActionState),
        UninstallAction.update ext (UninstallAction.update ext s)
          = UninstallAction.update ext s)
    ∧ (∀ (canInstall : IExtension → Bool) (ext : Option IExtension) (s₁ s₂ : ActionState),
        s₁.label = s₂.label →
        UpdateAction.update canInstall ext s₁ = UpdateAction.update canInstall ext s₂)
    ∧ (∀ (canInstall : IExtension → Bool) (ext : Option IExtension) (s : ActionState),
        (UpdateAction.update canInstall ext s).label = s.label)
    ∧ (∀ (canInstall : IExtension → Bool) (ext : Option IExtension) (s : ActionState),
        UpdateAction.update canInstall ext (UpdateAction.update canInstall ext s)
          = UpdateAction.update canInstall ext s)
    ∧ (∀ (ext : Option IExtension) (s₁ s₂ : ActionState),
        s₁.label = s₂.label →
        EnableAction.update ext s₁ = EnableAction.update ext s₂)
    ∧ (∀ (ext : Option IExtension) (s : ActionState),
        (EnableAction.update ext s).label = s.label)
    ∧ (∀ (ext : Option IExtension) (s : ActionState),
        EnableAction.update ext (EnableAction.update ext s) = EnableAction.update ext s)
    ∧ (∀ (ext : Option IExtension) (s₁ s₂ : ActionState),
        s₁.label = s₂.label →
        DisableAction.update ext s₁ = DisableAction.update ext s₂)
    ∧ (∀ (ext : Option IExtension) (s : ActionState),
        (DisableAction.update ext s).label = s.label)
    ∧ (∀ (ext : Option IExtension) (s : ActionState),
        DisableAction.update ext (DisableAction.update ext s) = DisableAction.update ext s)
    ∧ (∀ (ext : Option IExtension) (s₁ s₂ : ActionState),
        s₁.label = s₂.label →
        ReloadAction.update ext s₁ = ReloadAction.update ext s₂)
    ∧ (∀ (ext : Option IExtension) (s : ActionState),
        (ReloadAction.update ext s).label = s.label)
    ∧ (∀ (ext : Option IExtension) (s : ActionState),
        ReloadAction.update ext (ReloadAction.update ext s) = ReloadAction.update ext s)
    ∧ (∀ (small : Bool) (e₁ e₂ : IExtension),
        e₁.installCount = e₂.installCount →
        InstallWidget.render small (some e₁) = InstallWidget.render small (some e₂))
    ∧ (∀ (small : Bool) (e₁ e₂ : IExtension),
        e₁.rating = e₂.rating → e₁.ratingCount = e₂.ratingCount →
        RatingsWidget.render small (some e₁) = RatingsWidget.render small (some e₂))
    ∧ (∀ (ext : Option IExtension) (inst unin : ActionState) (s₁ s₂ : ActionState),
        (CombinedInstallAction.update ext inst unin s₁).enabled
          = (CombinedInstallAction.update ext inst unin s₂).enabled
        ∧ (CombinedInstallAction.update ext inst unin s₁).cls
          = (CombinedInstallAction.update ext inst unin s₂).cls)
    ∧ (∀ (ext : Option IExtension) (inst unin : ActionState) (s : ActionState),
        CombinedInstallAction.update ext inst unin
            (CombinedInstallAction.update ext inst unin s)
          = CombinedInstallAction.update ext inst unin s) := by
  have hInstDet : ∀ (ci : IExtension → Bool) (ext : Option IExtension)
      (s₁ s₂ : ActionState),
      InstallAction.update ci ext s₁ = InstallAction.update ci ext s₂ := by
    intro ci ext s₁ s₂
    obtain ⟨e₁, l₁, c₁⟩ := s₁
    obtain ⟨e₂, l₂, c₂⟩ := s₂
    cases ext with
    | none => rfl
    | some e => simp only [InstallAction.update]
  have hUninDet : ∀ (ext : Option IExtension) (s₁ s₂ : ActionState),
      s₁.label = s₂.label → s₁.cls = s₂.cls →
      UninstallAction.update ext s₁ = UninstallAction.update ext s₂ := by
    intro ext s₁ s₂ hl hc
    obtain ⟨e₁, l₁, c₁⟩ := s₁
    obtain ⟨e₂, l₂, c₂⟩ := s₂
    simp only at hl hc
    subst hl
    subst hc
    cases ext with
    | none => rfl
    | some e => simp only [UninstallAction.update]
  have hUpdLab : ∀ (ci : IExtension → Bool) (ext : Option IExtension) (s : ActionState),
      (UpdateAction.update ci ext s).label = s.label := by
    intro ci ext s
    cases ext with
    | none => rfl
    | some e =>
      simp only [UpdateAction.update]
      split <;> rfl
  have hUpdDet : ∀ (ci : IExtension → Bool) (ext : Option IExtension)
      (s₁ s₂ : ActionState),
      s₁.label = s₂.label →
      UpdateAction.update ci ext s₁ = UpdateAction.update ci ext s₂ := by
    intro ci ext s₁ s₂ h
    obtain ⟨e₁, l₁, c₁⟩ := s₁
    obtain ⟨e₂, l₂, c₂⟩ := s₂
    simp only at h
    subst h
    cases ext with
    | none => rfl
    | some e => simp only [UpdateAction.update]
  have hEnLab : ∀ (ext : Option IExtension) (s : ActionState),
      (EnableAction.update ext s).label = s.label := by
    intro ext s
    cases ext <;> rfl
  have hEnDet : ∀ (ext : Option IExtension) (s₁ s₂ : ActionState),
      s₁.label = s₂.label →
      EnableAction.update ext s₁ = EnableAction.update ext s₂ := by
    intro ext s₁ s₂ h
    obtain ⟨e₁, l₁, c₁⟩ := s₁
    obtain ⟨e₂, l₂, c₂⟩ := s₂
    simp only at h
    subst h
    cases ext with
    | none => rfl
    | some e => simp only [EnableAction.update]
  have hDiLab : ∀ (ext : Option IExtension) (s : ActionState),
      (DisableAction.update ext s).label = s.label := by
    intro ext s
    cases ext <;> rfl
  have hDiDet : ∀ (ext : Option IExtension) (s₁ s₂ : ActionState),
      s₁.label = s₂.label →
      DisableAction.update ext s₁ = DisableAction.update ext s₂ := by
    intro ext s₁ s₂ h
    obtain ⟨e₁, l₁, c₁⟩ := s₁
    obtain ⟨e₂, l₂, c₂⟩ := s₂
    simp only at h
    subst h
    cases ext with
    | none => rfl
    | some e => simp only [DisableAction.update]
  have hReLab : ∀ (ext : Option IExtension) (s : ActionState),
      (ReloadAction.update ext s).label = s.label := by
    intro ext s
    cases ext <;> rfl
  have hReDet : ∀ (ext : Option IExtension) (s₁ s₂ : ActionState),
      s₁.label = s₂.label →
      ReloadAction.update ext s₁ = ReloadAction.update ext s₂ := by
    intro ext s₁ s₂ h
    obtain ⟨e₁, l₁, c₁⟩ := s₁
    obtain ⟨e₂, l₂, c₂⟩ := s₂
    simp only at h
    subst h
    cases ext with
    | none => rfl
    | some e => simp only [ReloadAction.update]
  have hIW : ∀ (small : Bool) (e₁ e₂ : IExtension),
      e₁.installCount = e₂.installCount →
      InstallWidget.render small (some e₁) = InstallWidget.render small (some e₂) := by
    intro small e₁ e₂ h
    simp only [InstallWidget.render, h]
  have hRW : ∀ (small : Bool) (e₁ e₂ : IExtension),
      e₁.rating = e₂.rating → e₁.ratingCount = e₂.ratingCount →
      RatingsWidget.render small (some e₁) = RatingsWidget.render small (some e₂) := by
    intro small e₁ e₂ hr hc
    simp only [RatingsWidget.render, hr, hc]
  have hCombEC : ∀ (ext : Option IExtension) (inst unin : ActionState)
      (s₁ s₂ : ActionState),
      (CombinedInstallAction.update ext inst unin s₁).enabled
        = (CombinedInstallAction.update ext inst unin s₂).enabled
      ∧ (CombinedInstallAction.update ext inst unin s₁).cls
        = (CombinedInstallAction.update ext inst unin s₂).cls := by
    intro ext inst unin s₁ s₂
    cases ext with
    | none => exact ⟨rfl, rfl⟩
    | some e =>
      constructor <;> (simp only [CombinedInstallAction.update]; split_ifs <;> rfl)
  have hCombIdem : ∀ (ext : Option IExtension) (inst unin : ActionState)
      (s : ActionState),
      CombinedInstallAction.update ext inst unin
          (CombinedInstallAction.update ext inst unin s)
        = CombinedInstallAction.update ext inst unin s := by
    intro ext inst unin s
    cases ext with
    | none => rfl
    | some e =>
      simp only [CombinedInstallAction.update]
      split_ifs <;> rfl
  refine ⟨hInstDet, fun ci ext s => hInstDet ci ext _ s, hUninDet,
    uninstallUpdate_label_cls, ?_, hUpdDet, hUpdLab,
    fun ci ext s => hUpdDet ci ext _ s (hUpdLab ci ext s), hEnDet, hEnLab,
    fun ext s => hEnDet ext _ s (hEnLab ext s), hDiDet, hDiLab,
    fun ext s => hDiDet ext _ s (hDiLab ext s), hReDet, hReLab,
    fun ext s => hReDet ext _ s (hReLab ext s), hIW, hRW, hCombEC, hCombIdem⟩
  intro ext s
  exact hUninDet ext _ s (uninstallUpdate_label_cls ext s).1
    (uninstallUpdate_label_cls ext s).2

/-- C9 (witness): the Uninstall derivation yields the same triple from two different
prior states sharing the constructor's label and class. -/
theorem C9_derivation_pure_amended_witness :
    UninstallAction.update (some userUninstalledExt)
        { enabled := true, label := "Uninstall", cls := "extension-action uninstall" }
      = UninstallAction.update (some userUninstalledExt)
        { enabled := false, label := "Uninstall", cls := "extension-action uninstall" } :=
  C9_derivation_pure_amended.2.2.1 (some userUninstalledExt) _ _ rfl rfl

end ExtensionsWidgets
